import Mathlib

/-!
Shallow embedding of the rusic bar-spectrum visualizer core (src/lib.rs).

The Rust source drives a WebGL2 context.  We embed the CPU-side math exactly:
f32 arithmetic is modelled by exact arithmetic (rationals for all linear
operations; `powf` becomes `Real.rpow`, so the gamma-corrected value and
everything downstream of it lives in the reals).  GL side effects are
modelled as a trace of `GLOp` commands emitted by a frame render.  A Rust
panic (the out-of-bounds slice index reachable when the frequency array is
empty) is modelled by `Option`: `none` is the panicking run.
-/

namespace Rusic

/-- Number of bars (`const NUM_BARS: usize = 128`). -/
def NUM_BARS : ℕ := 128

/-- `struct VisualizerState`: the GL handles are opaque, modelled as naturals;
`canvas_width`/`canvas_height` are the stored viewport dimensions. -/
structure VisualizerState where
  program : ℕ
  vertex_buffer : ℕ
  resolution_loc : ℕ
  canvas_width : ℚ
  canvas_height : ℚ
  deriving DecidableEq

/-- One WebGL command observed during a call, in issue order. -/
inductive GLOp where
  | clearColor (r g b a : ℚ)
  | clear
  | uniform2f (loc : ℕ) (x y : ℚ)
  | bufferData (data : List ℝ)
  | drawArrays (first count : ℕ)
  | viewport (x y w h : ℤ)

/-- Recognise the draw call (`gl.draw_arrays(TRIANGLES, ...)`). -/
def GLOp.isDraw : GLOp → Bool
  | .drawArrays _ _ => true
  | _ => false

/-- `width as i32`: truncation toward zero of the stored dimension
(saturation at the i32 range is irrelevant to the claims and omitted). -/
def ratToI32 (q : ℚ) : ℤ := Int.tdiv q.num q.den

/-- `let padding_x = state.canvas_width * 0.05;` -/
def padding_x (w : ℚ) : ℚ := w * 0.05

/-- `let total_width = state.canvas_width - (2.0 * padding_x);` -/
def total_width (w : ℚ) : ℚ := w - 2 * padding_x w

/-- `let bar_spacing = total_width / NUM_BARS as f32;` -/
def bar_spacing (w : ℚ) : ℚ := total_width w / (NUM_BARS : ℚ)

/-- `let bar_width = bar_spacing * 0.7;` -/
def bar_width (w : ℚ) : ℚ := bar_spacing w * 0.7

/-- `let max_height = state.canvas_height * 0.35;` -/
def max_height (h : ℚ) : ℚ := h * 0.35

/-- `let x_center = padding_x + (i as f32 * bar_spacing) + (bar_spacing / 2.0);` -/
def x_center (w : ℚ) (i : ℕ) : ℚ :=
  padding_x w + (i : ℚ) * bar_spacing w + bar_spacing w / 2

/-- `let freq_idx = i.min(frequency_data.len() - 1);` (the `- 1` is the
wrapping/panicking `usize` subtraction; for an empty array the subsequent
slice index panics, which `freqByte` renders as `none`). -/
def freqIdx (len i : ℕ) : ℕ := min i (len - 1)

/-- `frequency_data[freq_idx]` — `none` models the panic on an empty slice. -/
def freqByte (data : List ℕ) (i : ℕ) : Option ℕ :=
  data[freqIdx data.length i]?

/-- Total byte read used to describe the successful runs. -/
def byteD (data : List ℕ) (i : ℕ) : ℕ :=
  data.getD (freqIdx data.length i) 0

/-- `let value = frequency_data[freq_idx] as f32 / 255.0;` -/
def normalized (b : ℕ) : ℚ := (b : ℚ) / 255

/-- `let smoothed_value = value.powf(0.85);` — gamma correction. -/
noncomputable def smoothedValue (b : ℕ) : ℝ :=
  ((normalized b : ℚ) : ℝ) ^ (0.85 : ℝ)

/-- `let h = 4.0 + (smoothed_value * max_height);` — the bar half-height. -/
noncomputable def halfHeight (ch : ℚ) (b : ℕ) : ℝ :=
  4 + smoothedValue b * ((max_height ch : ℚ) : ℝ)

/-- The 6 vertices (2 triangles, 4 floats each: x, y, value, index) the loop
body pushes for bar `i` when the byte read returns `b`, given viewport
dimensions `w × ch`. -/
noncomputable def barChunk (w ch : ℚ) (b i : ℕ) : List ℝ :=
  let sv : ℝ := smoothedValue b
  let cy : ℚ := ch / 2
  let x1 : ℝ := ((x_center w i - bar_width w / 2 : ℚ) : ℝ)
  let x2 : ℝ := ((x_center w i + bar_width w / 2 : ℚ) : ℝ)
  let yTop : ℝ := (cy : ℝ) - halfHeight ch b
  let yBot : ℝ := (cy : ℝ) + halfHeight ch b
  let idx : ℝ := (i : ℕ)
  [x1, yTop, sv, idx, x2, yTop, sv, idx, x1, yBot, sv, idx,
   x2, yTop, sv, idx, x2, yBot, sv, idx, x1, yBot, sv, idx]

/-- One loop iteration: read the (possibly panicking) byte, emit the chunk. -/
noncomputable def barVertices (w ch : ℚ) (data : List ℕ) (i : ℕ) :
    Option (List ℝ) :=
  (freqByte data i).map (fun b => barChunk w ch b i)

/-- The whole `vertices` vector built by the `for i in 0..NUM_BARS` loop. -/
noncomputable def renderVertices (w ch : ℚ) (data : List ℕ) :
    Option (List ℝ) :=
  ((List.range NUM_BARS).mapM (barVertices w ch data)).map List.flatten

/-- The GL trace of one frame: clear, resolution uniform, vertex upload,
one triangle draw of `NUM_BARS * 6` vertices. -/
def mkRenderOps (loc : ℕ) (w ch : ℚ) (v : List ℝ) : List GLOp :=
  [GLOp.clearColor 0 0 0 0,
   GLOp.clear,
   GLOp.uniform2f loc w ch,
   GLOp.bufferData v,
   GLOp.drawArrays 0 (NUM_BARS * 6)]

/-- `fn render_linear_visualizer(state: &mut VisualizerState, frequency_data: &[u8])`:
reads the state, emits the trace; `none` is the panicking run (empty array). -/
noncomputable def render_linear_visualizer (s : VisualizerState)
    (data : List ℕ) : Option (List GLOp) :=
  (renderVertices s.canvas_width s.canvas_height data).map
    (mkRenderOps s.resolution_loc s.canvas_width s.canvas_height)

/-- `pub fn render_frame(frequency_data: &[u8], _time_data: &[u8])`: the
thread-local `STATE` is the `Option VisualizerState`; when it is unset the
call does nothing.  Result: (state after the call, trace or `none` on panic). -/
noncomputable def render_frame (st : Option VisualizerState)
    (frequency_data _time_data : List ℕ) :
    Option VisualizerState × Option (List GLOp) :=
  match st with
  | none => (none, some [])
  | some s => (some s, render_linear_visualizer s frequency_data)

/-- `pub fn update_canvas_size(width: f32, height: f32)`: overwrite the stored
dimensions and reset the GL viewport; a no-op when `STATE` is unset. -/
def update_canvas_size (st : Option VisualizerState) (width height : ℚ) :
    Option VisualizerState × List GLOp :=
  match st with
  | none => (none, [])
  | some s =>
    (some { s with canvas_width := width, canvas_height := height },
     [GLOp.viewport 0 0 (ratToI32 width) (ratToI32 height)])

/-! Fragment shader math (the GLSL string `frag_src`), over exact numbers.
`smoothstep`/`mix`/`clamp` follow the GLSL ES 3.0 definitions. -/

/-- GLSL `clamp(x, lo, hi)`. -/
def glslClamp (x lo hi : ℚ) : ℚ := min (max x lo) hi

/-- GLSL `smoothstep(e0, e1, x)`. -/
def smoothstep (e0 e1 x : ℚ) : ℚ :=
  let t := glslClamp ((x - e0) / (e1 - e0)) 0 1
  t * t * (3 - 2 * t)

/-- GLSL `mix(a, b, t)` on a vec3 of rationals. -/
def mix3 (a b : ℚ × ℚ × ℚ) (t : ℚ) : ℚ × ℚ × ℚ :=
  (a.1 + (b.1 - a.1) * t, a.2.1 + (b.2.1 - a.2.1) * t, a.2.2 + (b.2.2 - a.2.2) * t)

/-- `vec3 c1 = vec3(0.0, 0.84, 1.0);` — cyan endpoint. -/
def cyanColor : ℚ × ℚ × ℚ := (0, 0.84, 1)

/-- `vec3 c2 = vec3(0.39, 0.4, 0.95);` — indigo midpoint. -/
def indigoColor : ℚ × ℚ × ℚ := (0.39, 0.4, 0.95)

/-- `vec3 c3 = vec3(1.0, 0.18, 0.58);` — pink endpoint. -/
def pinkColor : ℚ × ℚ × ℚ := (1, 0.18, 0.58)

/-- `float t = v_index / 128.0;` — the bar-index fraction. -/
def indexFraction (idx : ℚ) : ℚ := idx / 128

/-- The two-segment gradient of the fragment shader as a function of the
bar-index fraction `t`, before glow and alpha are applied. -/
def barColor (t : ℚ) : ℚ × ℚ × ℚ :=
  let color := mix3 cyanColor indigoColor (smoothstep 0 0.5 t)
  mix3 color pinkColor (smoothstep 0.5 1 t)

/-- `float glow = 0.5 + v_value * 0.5;` -/
noncomputable def glow (v : ℝ) : ℝ := 0.5 + v * 0.5

/-- `float alpha = 0.9 + v_value * 0.1;` -/
noncomputable def alphaOut (v : ℝ) : ℝ := 0.9 + v * 0.1

/-! ### Helper lemmas -/

theorem mapM_option_some {α β : Type} (f : α → Option β) (g : α → β) :
    ∀ l : List α, (∀ a ∈ l, f a = some (g a)) → l.mapM f = some (l.map g) := by
  intro l
  induction l with
  | nil => intro _; rfl
  | cons a l ih =>
    intro h
    rw [List.mapM_cons, h a (List.mem_cons_self a l),
      ih (fun x hx => h x (List.mem_cons_of_mem a hx))]
    rfl

theorem flatten_getElem_uniform {α : Type} (n : ℕ) :
    ∀ (chunks : List (List α)), (∀ b ∈ chunks, b.length = n) →
      ∀ (i r : ℕ), r < n →
      chunks.flatten[n * i + r]? = (chunks[i]?).bind (fun b => b[r]?) := by
  intro chunks
  induction chunks with
  | nil => intro _ i r _; simp
  | cons b bs ih =>
    intro h i r hr
    have hb : b.length = n := h b (List.mem_cons_self b bs)
    cases i with
    | zero =>
      simp only [List.flatten_cons, Nat.mul_zero, Nat.zero_add]
      rw [List.getElem?_append, if_pos (by omega)]
      simp
    | succ i' =>
      simp only [List.flatten_cons]
      rw [List.getElem?_append, if_neg (by push_neg; nlinarith)]
      have he : n * (i' + 1) + r - b.length = n * i' + r := by
        rw [hb]; ring_nf; omega
      rw [he, ih (fun x hx => h x (List.mem_cons_of_mem b hx)) i' r hr]
      simp

theorem flatten_length_uniform {α : Type} (n : ℕ) :
    ∀ (chunks : List (List α)), (∀ b ∈ chunks, b.length = n) →
      chunks.flatten.length = n * chunks.length := by
  intro chunks
  induction chunks with
  | nil => intro _; simp
  | cons b bs ih =>
    intro h
    have hb : b.length = n := h b (List.mem_cons_self b bs)
    simp only [List.flatten_cons, List.length_append, List.length_cons,
      ih (fun x hx => h x (List.mem_cons_of_mem b hx)), hb]
    ring

end Rusic

namespace Rusic

/-! ### Claims -/

/-- C8: the output of render_frame is independent of its time_data argument:
for every fixed state and frequency array, two calls with any two time_data
arrays produce identical results. -/
theorem C8_time_data_unused (st : Option VisualizerState)
    (fd td1 td2 : List ℕ) :
    render_frame st fd td1 = render_frame st fd td2 := rfl

/-- C9: calling render_frame while the process-wide state is unset is a
no-op: it performs no rendering (empty GL trace), does not fail, and leaves
the state unchanged (still unset). -/
theorem C9_render_before_init_noop (fd td : List ℕ) :
    render_frame none fd td = (none, some []) := rfl

/-- C10: a frame render never modifies any field of the stored context, and
update_canvas_size overwrites exactly the stored dimensions, leaving the
program handle, buffer handle and uniform location untouched. -/
theorem C10_state_preservation (s : VisualizerState) (fd td : List ℕ)
    (w h : ℚ) :
    (render_frame (some s) fd td).1 = some s ∧
    ∃ s2, (update_canvas_size (some s) w h).1 = some s2 ∧
      s2.program = s.program ∧ s2.vertex_buffer = s.vertex_buffer ∧
      s2.resolution_loc = s.resolution_loc ∧
      s2.canvas_width = w ∧ s2.canvas_height = h :=
  ⟨rfl, _, rfl, rfl, rfl, rfl, rfl, rfl⟩

/-- C7: after update_canvas_size w h, the stored dimensions are exactly w, h
(synchronous overwrite) and a subsequent frame render computes its geometry
against w × h — its vertex data is renderVertices w h data, not anything
involving the prior dimensions. -/
theorem C7_resize_then_render (s : VisualizerState) (w h : ℚ)
    (data : List ℕ) :
    ∃ s2, (update_canvas_size (some s) w h).1 = some s2 ∧
      s2.canvas_width = w ∧ s2.canvas_height = h ∧
      render_linear_visualizer s2 data =
        (renderVertices w h data).map (mkRenderOps s.resolution_loc w h) :=
  ⟨_, rfl, rfl, rfl, rfl⟩

/-- C6: the fragment-stage gradient, as a function of the bar-index fraction
t, yields the pure cyan endpoint at t = 0, the indigo midpoint at t = 0.5 and
the pure pink endpoint at t = 1 (before glow and alpha). -/
theorem C6_color_gradient :
    barColor 0 = cyanColor ∧ barColor 0.5 = indigoColor ∧
    barColor 1 = pinkColor := by
  refine ⟨?_, ?_, ?_⟩ <;>
    norm_num [barColor, mix3, smoothstep, glslClamp, cyanColor, indigoColor,
      pinkColor]

theorem smoothedValue_zero : smoothedValue 0 = 0 := by
  have h : normalized 0 = 0 := by norm_num [normalized]
  rw [smoothedValue, h]
  push_cast
  exact Real.zero_rpow (by norm_num)

theorem smoothedValue_max : smoothedValue 255 = 1 := by
  have h : normalized 255 = 1 := by norm_num [normalized]
  rw [smoothedValue, h]
  push_cast
  exact Real.one_rpow _

theorem smoothedValue_mono (b1 b2 : ℕ) (h : b1 ≤ b2) :
    smoothedValue b1 ≤ smoothedValue b2 := by
  unfold smoothedValue normalized
  push_cast
  gcongr

theorem max_height_cast (H : ℚ) :
    ((max_height H : ℚ) : ℝ) = 0.35 * (H : ℝ) := by
  unfold max_height
  push_cast
  ring

theorem halfHeight_zero (H : ℚ) : halfHeight H 0 = 4 := by
  rw [halfHeight, smoothedValue_zero]; ring

theorem halfHeight_max (H : ℚ) :
    halfHeight H 255 = 4 + 0.35 * (H : ℝ) := by
  rw [halfHeight, smoothedValue_max, max_height_cast]; ring

/-- C2: half-height is 4 + (m/255)^0.85 × (0.35 × viewport height): raw
magnitude 0 gives exactly 4, raw magnitude 255 gives exactly
4 + 0.35 × height, and for a fixed (nonnegative) viewport height the
half-height is monotone non-decreasing in the raw magnitude. -/
theorem C2_gamma_half_height (H : ℚ) (b1 b2 : ℕ) (hH : 0 ≤ H)
    (hb : b1 ≤ b2) :
    halfHeight H 0 = 4 ∧
    halfHeight H 255 = 4 + 0.35 * (H : ℝ) ∧
    halfHeight H b1 ≤ halfHeight H b2 := by
  refine ⟨halfHeight_zero H, halfHeight_max H, ?_⟩
  unfold halfHeight
  have hmh : (0:ℝ) ≤ ((max_height H : ℚ) : ℝ) := by
    rw [max_height_cast]; positivity
  nlinarith [smoothedValue_mono b1 b2 hb]

/-- Witness for C2 at H = 600, magnitudes 10 ≤ 20. -/
theorem C2_gamma_half_height_witness :
    halfHeight 600 0 = 4 ∧
    halfHeight 600 255 = 4 + 0.35 * ((600 : ℚ) : ℝ) ∧
    halfHeight 600 10 ≤ halfHeight 600 20 :=
  C2_gamma_half_height 600 10 20 (by norm_num) (by norm_num)

/-- C4: horizontal layout for a (nonnegative) viewport width W: bar 0's left
edge is at least 0.05 W, bar 127's right edge is at most 0.95 W, every slot
has the same width 0.90 W / 128, and each bar is 70% of its slot width. -/
theorem C4_horizontal_layout (W : ℚ) (hW : 0 ≤ W) :
    W * 0.05 ≤ x_center W 0 - bar_width W / 2 ∧
    x_center W 127 + bar_width W / 2 ≤ W * 0.95 ∧
    bar_spacing W = W * 0.9 / 128 ∧
    (∀ i : ℕ, x_center W (i + 1) - x_center W i = W * 0.9 / 128) ∧
    bar_width W = 0.7 * bar_spacing W := by
  refine ⟨?_, ?_, ?_, ?_, ?_⟩
  · simp only [x_center, bar_width, bar_spacing, total_width, padding_x,
      NUM_BARS, Nat.cast_zero, Nat.cast_ofNat]
    linarith
  · simp only [x_center, bar_width, bar_spacing, total_width, padding_x,
      NUM_BARS, Nat.cast_ofNat]
    linarith
  · simp only [bar_spacing, total_width, padding_x, NUM_BARS,
      Nat.cast_ofNat]
    ring
  · intro i
    simp only [x_center, bar_spacing, total_width, padding_x, NUM_BARS,
      Nat.cast_ofNat]
    push_cast
    ring
  · simp only [bar_width]; ring

/-- Witness for C4 at W = 800. -/
theorem C4_horizontal_layout_witness :
    (800 : ℚ) * 0.05 ≤ x_center 800 0 - bar_width 800 / 2 ∧
    x_center 800 127 + bar_width 800 / 2 ≤ (800 : ℚ) * 0.95 ∧
    bar_spacing 800 = (800 : ℚ) * 0.9 / 128 ∧
    (∀ i : ℕ, x_center 800 (i + 1) - x_center 800 i = (800 : ℚ) * 0.9 / 128) ∧
    bar_width 800 = 0.7 * bar_spacing 800 :=
  C4_horizontal_layout 800 (by norm_num)

theorem freqByte_replicate (v i : ℕ) :
    freqByte (List.replicate 128 v) i = some v := by
  unfold freqByte freqIdx
  rw [List.getElem?_replicate, if_pos (by simp)]

/-- C5: for the all-zeros array every bar reads byte 0, giving half-height
exactly 4, glow 0.5, alpha 0.9; for the all-255 array every bar reads byte
255, giving half-height exactly 4 + 0.35 H, glow 1 and alpha 1 (glow and
alpha applied to the gamma-corrected value). -/
theorem C5_extreme_frames (H : ℚ) (i : ℕ) :
    freqByte (List.replicate 128 0) i = some 0 ∧
    freqByte (List.replicate 128 255) i = some 255 ∧
    halfHeight H 0 = 4 ∧
    glow (smoothedValue 0) = 0.5 ∧
    alphaOut (smoothedValue 0) = 0.9 ∧
    halfHeight H 255 = 4 + 0.35 * (H : ℝ) ∧
    glow (smoothedValue 255) = 1 ∧
    alphaOut (smoothedValue 255) = 1 := by
  refine ⟨freqByte_replicate 0 i, freqByte_replicate 255 i,
    halfHeight_zero H, ?_, ?_, halfHeight_max H, ?_, ?_⟩
  · rw [glow, smoothedValue_zero]; norm_num
  · rw [alphaOut, smoothedValue_zero]; norm_num
  · rw [glow, smoothedValue_max]; norm_num
  · rw [alphaOut, smoothedValue_max]; norm_num

theorem freqByte_eq_some (data : List ℕ) (hd : data ≠ []) (i : ℕ) :
    freqByte data i = some (byteD data i) := by
  have hpos : 0 < data.length := List.length_pos.mpr hd
  have hlt : freqIdx data.length i < data.length := by unfold freqIdx; omega
  unfold freqByte byteD
  rw [List.getElem?_eq_getElem hlt, List.getD_eq_getElem?_getD,
    List.getElem?_eq_getElem hlt]
  rfl

theorem barChunk_length (w ch : ℚ) (b i : ℕ) :
    (barChunk w ch b i).length = 24 := rfl

theorem barChunk_getElem_index (w ch : ℚ) (b i k : ℕ) (hk : k < 6) :
    (barChunk w ch b i)[4 * k + 3]? = some ((i : ℕ) : ℝ) := by
  interval_cases k <;> rfl

/-- C1: for every frequency array of length 128 (byte values at most 255),
one frame render succeeds and emits exactly 128 × 6 vertices (4 floats
each); the index field (fourth float) of all 6 vertices of bar i equals i;
and the trace carries a single triangle draw call of 128 × 6 vertices,
covering all emitted vertex data. -/
theorem C1_frame_emission (s : VisualizerState) (data : List ℕ)
    (hlen : data.length = 128) (_hval : ∀ b ∈ data, b ≤ 255) :
    ∃ v : List ℝ,
      render_linear_visualizer s data =
        some (mkRenderOps s.resolution_loc s.canvas_width s.canvas_height v) ∧
      v.length = 128 * 6 * 4 ∧
      (∀ i k : ℕ, i < 128 → k < 6 →
        v[(6 * i + k) * 4 + 3]? = some ((i : ℕ) : ℝ)) ∧
      (mkRenderOps s.resolution_loc s.canvas_width s.canvas_height v).filter
          (fun op => op.isDraw) = [GLOp.drawArrays 0 (128 * 6)] ∧
      4 * (128 * 6) = v.length := by
  have hd : data ≠ [] := by
    intro h; rw [h] at hlen; simp at hlen
  have hmm : (List.range NUM_BARS).mapM
        (barVertices s.canvas_width s.canvas_height data)
      = some ((List.range NUM_BARS).map
        (fun i => barChunk s.canvas_width s.canvas_height (byteD data i) i)) :=
    mapM_option_some _ _ _ (fun i _ => by
      unfold barVertices; rw [freqByte_eq_some data hd i]; rfl)
  set chunks := (List.range NUM_BARS).map
    (fun i => barChunk s.canvas_width s.canvas_height (byteD data i) i)
    with hchunks
  have hcl : ∀ b ∈ chunks, b.length = 24 := by
    intro b hb
    rw [hchunks] at hb
    simp only [List.mem_map] at hb
    obtain ⟨j, _, rfl⟩ := hb
    rfl
  refine ⟨chunks.flatten, ?_, ?_, ?_, rfl, ?_⟩
  · unfold render_linear_visualizer renderVertices
    rw [hmm]
    rfl
  · rw [flatten_length_uniform 24 chunks hcl]
    simp [hchunks, NUM_BARS]
  · intro i k hi hk
    have hidx : (6 * i + k) * 4 + 3 = 24 * i + (4 * k + 3) := by ring
    rw [hidx, flatten_getElem_uniform 24 chunks hcl i (4 * k + 3) (by omega)]
    have hci : chunks[i]? =
        some (barChunk s.canvas_width s.canvas_height (byteD data i) i) := by
      rw [hchunks, List.getElem?_map]
      simp [NUM_BARS, hi]
    rw [hci]
    simpa using barChunk_getElem_index s.canvas_width s.canvas_height
      (byteD data i) i k hk
  · rw [flatten_length_uniform 24 chunks hcl]
    simp [hchunks, NUM_BARS]

/-- Witness for C1 at a concrete state and the all-100 array of length 128. -/
theorem C1_frame_emission_witness :
    ∃ v : List ℝ,
      render_linear_visualizer ⟨1, 2, 3, 800, 600⟩ (List.replicate 128 100) =
        some (mkRenderOps 3 800 600 v) ∧
      v.length = 128 * 6 * 4 ∧
      (∀ i k : ℕ, i < 128 → k < 6 →
        v[(6 * i + k) * 4 + 3]? = some ((i : ℕ) : ℝ)) ∧
      (mkRenderOps 3 800 600 v).filter (fun op => op.isDraw)
        = [GLOp.drawArrays 0 (128 * 6)] ∧
      4 * (128 * 6) = v.length :=
  C1_frame_emission ⟨1, 2, 3, 800, 600⟩ (List.replicate 128 100)
    (by simp) (by intro b hb; rw [List.eq_of_mem_replicate hb]; norm_num)

/-- C3 as stated is false at the empty array: the byte read panics (the
clamped index is out of range for an empty slice), so the render fails. -/
theorem C3_empty_array_fails :
    render_linear_visualizer ⟨0, 0, 0, 800, 600⟩ [] = none := by
  have h : List.range NUM_BARS = 0 :: (List.range 127).map Nat.succ := by
    rw [NUM_BARS, show (128 : ℕ) = 127 + 1 from rfl, List.range_succ_eq_map]
  unfold render_linear_visualizer renderVertices
  rw [h, List.mapM_cons]
  simp [barVertices, freqByte, freqIdx]

/-- C3 amended: for every nonempty frequency array shorter than 128 bars the
render does not fail, no byte read is out of range, and every bar index at
or beyond the array length reads the byte at the last valid index len - 1. -/
theorem C3_short_array_clamps (s : VisualizerState) (data : List ℕ)
    (hne : data ≠ []) (_hshort : data.length < 128) :
    (render_linear_visualizer s data).isSome = true ∧
    (∀ i : ℕ, i < 128 → (freqByte data i).isSome = true) ∧
    (∀ i : ℕ, data.length ≤ i →
      freqByte data i = data[data.length - 1]?) := by
  refine ⟨?_, ?_, ?_⟩
  · unfold render_linear_visualizer renderVertices
    rw [mapM_option_some _
      (fun i => barChunk s.canvas_width s.canvas_height (byteD data i) i) _
      (fun i _ => by unfold barVertices; rw [freqByte_eq_some data hne i]; rfl)]
    rfl
  · intro i _
    rw [freqByte_eq_some data hne i]
    rfl
  · intro i hi
    have hmin : freqIdx data.length i = data.length - 1 := by
      unfold freqIdx; omega
    rw [freqByte, hmin]

/-- Witness for C3 amended: length-3 array, bars 3..127 read index 2. -/
theorem C3_short_array_clamps_witness :
    (render_linear_visualizer ⟨1, 2, 3, 800, 600⟩ [7, 8, 9]).isSome = true ∧
    (∀ i : ℕ, i < 128 → (freqByte [7, 8, 9] i).isSome = true) ∧
    (∀ i : ℕ, ([7, 8, 9] : List ℕ).length ≤ i →
      freqByte [7, 8, 9] i = [7, 8, 9][([7, 8, 9] : List ℕ).length - 1]?) :=
  C3_short_array_clamps ⟨1, 2, 3, 800, 600⟩ [7, 8, 9] (by simp) (by simp)

end Rusic
